import Mathlib

/-!
Verification of the Emotos MCP relay (`EmotosMCPProxy`), the config store
(`config.js`) and the audit emitter (`logger.js`).

The JavaScript source is shallowly embedded: the relay's mutable instance
state (`upstream`, `pending`, `token`, `tokenExpiresAt`, `refreshTimeout`)
becomes an explicit state record, each event handler becomes a state
transition function, JavaScript `Map` operations become association-list
operations with `Map.set` replace-or-append semantics, `setTimeout` handles
become entries of an explicit active-timer list (firing or clearing removes
the entry), and promise settlement becomes an explicit promise-state table
with JavaScript's settle-at-most-once semantics.
-/

namespace EmotosMCP

/-- A JSON-RPC message identifier as used for `Map` keys: the relay keys its
pending map by `msg.id`, which is a string (caller-supplied or a generated
UUID) or a number. -/
inductive JsId where
  | str (s : String)
  | num (n : Int)
deriving DecidableEq, Repr

/-- `readyState` of a `ws` WebSocket (`CONNECTING`/`OPEN`/`CLOSING`/`CLOSED`). -/
inductive ReadyState where
  | connecting
  | opened
  | closing
  | closed
deriving DecidableEq, Repr

/-- One upstream WebSocket client connection created by `connectUpstream`;
`cid` numbers the connections in creation order so that distinct
connections are distinguishable. -/
structure UpstreamConn where
  cid : Nat
  url : String
  readyState : ReadyState
deriving DecidableEq, Repr

/-- A local JSON-RPC request as seen by `forward`: an optional `id`, an
optional `method`, and an abstract payload standing for the remaining
fields (`params` etc.), which the relay never interprets. -/
structure Request where
  id? : Option JsId
  method? : Option String
  payload : Nat
deriving DecidableEq, Repr

/-- A parsed upstream message: an optional `id` (the correlation key) and an
abstract payload standing for the rest of the message (`result`/`error`),
which the relay forwards verbatim. -/
structure UpMsg where
  id? : Option JsId
  payload : Nat
deriving DecidableEq, Repr

/-- The settlement state of one promise created by `forward`. JavaScript
promises settle at most once; `settle` below enforces that. -/
inductive PromiseState where
  | pending
  | resolved (msg : UpMsg)
  | rejected (err : String)
deriving DecidableEq, Repr

/-- One entry of `this.pending`: the key `id` and the data captured by the
registered callback `(response) => { clearTimeout(timeout); resolve(response) }`,
namely the timer handle to clear and the promise to resolve. -/
structure PendEntry where
  key : JsId
  tid : Nat
  pidx : Nat
deriving DecidableEq, Repr

/-- One active `setTimeout` created by `forward`: its handle, the request id
it will delete from `pending`, the promise it will reject, and its delay in
milliseconds (`30_000` in the source). -/
structure Timer where
  tid : Nat
  key : JsId
  pidx : Nat
  delayMs : Nat
deriving DecidableEq, Repr

/-- One active reconnect `setTimeout` scheduled by the upstream `close`
handler (`setTimeout(() => this.connectUpstream(), 2000)`). -/
structure ReconnTimer where
  tid : Nat
  delayMs : Nat
deriving DecidableEq, Repr

/-- The mutable instance state of `EmotosMCPProxy` relevant to forwarding and
reconnection, plus the bookkeeping the embedding needs: the promise table,
the active timers, the list of messages sent upstream, and fresh counters
for timer handles and connection numbers. -/
structure ProxyState where
  upstream : Option UpstreamConn
  pending : List PendEntry
  timers : List Timer
  promises : List PromiseState
  sent : List Request
  nextTimerId : Nat
  connCounter : Nat
  reconnectTimers : List ReconnTimer
deriving DecidableEq, Repr

/-- The parsed view of the JSON config document, as its consumers read it
(`config.agentId`, `config.orgApiKey`, `config.apiUrl`, `config.proxyUrl`);
absent fields are `none`. -/
structure Config where
  agentId : Option String
  orgApiKey : Option String
  apiUrl : Option String
  proxyUrl : Option String
deriving DecidableEq, Repr

/-- The guard of `forward`: `!this.upstream || this.upstream.readyState !== WebSocket.OPEN`
negated, i.e. there is an upstream connection and it is `OPEN`. -/
def isOpen : Option UpstreamConn → Bool
  | some c => c.readyState == ReadyState.opened
  | none => false

/-- The error message thrown by `forward` when no upstream connection is open. -/
def notConnectedMessage : String :=
  "Not connected to Emotos proxy. Check your network or token."

/-- The error message used to reject a forwarded request whose timer fires. -/
def timeoutErrorMessage : String :=
  "Upstream request timed out after 30s"

/-- `Map.set` on the pending map: replace the value at an existing key in
place, otherwise append a new entry at the end (JavaScript `Map` insertion
order semantics). -/
def mapSet : List PendEntry → PendEntry → List PendEntry
  | [], e => [e]
  | x :: xs, e => if x.key == e.key then e :: xs else x :: mapSet xs e

/-- `this.pending.get(msg.id)`: `undefined` (`none`) when the message has no
id — pending keys are always defined ids — otherwise a key lookup. -/
def lookupPending (l : List PendEntry) (k? : Option JsId) : Option PendEntry :=
  match k? with
  | none => none
  | some k => l.find? (fun e => e.key == k)

/-- Settle promise `i`: JavaScript `resolve`/`reject` are no-ops on an
already-settled promise, so only a `pending` promise changes state. -/
def settle (ps : List PromiseState) (i : Nat) (v : PromiseState) : List PromiseState :=
  match ps[i]? with
  | some PromiseState.pending => ps.set i v
  | _ => ps

/-- `EmotosMCPProxy.forward(request)`. If the upstream connection is absent
or not `OPEN`, it throws `notConnectedMessage` before touching any state.
Otherwise it takes `id = request.id ?? crypto.randomUUID()` (the fresh UUID
is the `fresh` parameter), creates a new pending promise, arms a 30 000 ms
timeout, registers the completion callback in `this.pending` under `id`
(`Map.set`), and sends the request — with `request.id = id` written back —
upstream. Returns the index of the new promise. -/
def forward (s : ProxyState) (req : Request) (fresh : JsId) :
    ProxyState × Except String Nat :=
  if isOpen s.upstream then
    let id := req.id?.getD fresh
    let pidx := s.promises.length
    let tid := s.nextTimerId
    ({ s with
        promises := s.promises ++ [PromiseState.pending]
        timers := s.timers ++ [{ tid := tid, key := id, pidx := pidx, delayMs := 30000 }]
        pending := mapSet s.pending { key := id, tid := tid, pidx := pidx }
        sent := s.sent ++ [{ req with id? := some id }]
        nextTimerId := tid + 1 },
      Except.ok pidx)
  else
    (s, Except.error notConnectedMessage)

/-- The upstream `message` handler: parse the frame, look up
`this.pending.get(msg.id)`; if a callback is registered, run it — clear the
captured timeout and resolve the captured promise with the parsed message —
then `this.pending.delete(msg.id)`; otherwise do nothing. -/
def handleUpstreamMessage (s : ProxyState) (msg : UpMsg) : ProxyState :=
  match lookupPending s.pending msg.id? with
  | none => s
  | some e =>
    { s with
        timers := s.timers.filter (fun t => t.tid != e.tid)
        promises := settle s.promises e.pidx (PromiseState.resolved msg)
        pending := s.pending.filter (fun x => x.key != e.key) }

/-- The timeout callback armed by `forward` firing for handle `tid`: if the
timer is still active (not cleared and not already fired), it is consumed,
`this.pending.delete(id)` removes whatever entry currently holds that key,
and the captured promise is rejected with the timeout error. -/
def fireTimeout (s : ProxyState) (tid : Nat) : ProxyState :=
  match s.timers.find? (fun t => t.tid == tid) with
  | none => s
  | some tm =>
    { s with
        timers := s.timers.filter (fun t => t.tid != tid)
        pending := s.pending.filter (fun x => x.key != tm.key)
        promises := settle s.promises tm.pidx (PromiseState.rejected timeoutErrorMessage) }

/-- The default upstream URL used when the config has no `proxyUrl`. -/
def defaultProxyUrl : String := "wss://proxy.emotos.ai/v1/mcp"

/-- `EmotosMCPProxy.connectUpstream()`: assigns `this.upstream` a freshly
created WebSocket client for `config.proxyUrl` (or the default), replacing
whatever connection was referenced before. -/
def connectUpstream (cfg : Config) (s : ProxyState) : ProxyState :=
  { s with
      upstream := some
        { cid := s.connCounter
          url := cfg.proxyUrl.getD defaultProxyUrl
          readyState := ReadyState.connecting }
      connCounter := s.connCounter + 1 }

/-- The upstream `close` handler: unconditionally schedules
`setTimeout(() => this.connectUpstream(), 2000)` — a fixed 2 000 ms delay,
with no attempt counter, no backoff and no cap. -/
def handleUpstreamClose (s : ProxyState) : ProxyState :=
  { s with
      reconnectTimers := s.reconnectTimers ++ [{ tid := s.nextTimerId, delayMs := 2000 }]
      nextTimerId := s.nextTimerId + 1 }

/-- A scheduled reconnect timer firing: if still active it is consumed and
`connectUpstream` runs. -/
def fireReconnect (cfg : Config) (s : ProxyState) (tid : Nat) : ProxyState :=
  if s.reconnectTimers.any (fun t => t.tid == tid) then
    connectUpstream cfg
      { s with reconnectTimers := s.reconnectTimers.filter (fun t => t.tid != tid) }
  else s

section ListLemmas

variable {α : Type} {κ : Type}

/-- `find?` skips a prefix on which it finds nothing. -/
theorem find?_append_of_none (l₁ l₂ : List α) (p : α → Bool) (h : l₁.find? p = none) :
    (l₁ ++ l₂).find? p = l₂.find? p := by
  induction l₁ with
  | nil => rfl
  | cons x xs ih =>
    rw [List.find?_cons] at h
    cases hx : p x with
    | true => rw [hx] at h; exact absurd h (by simp)
    | false =>
      rw [hx] at h
      simpa [List.find?_cons, hx] using ih h

/-- After filtering out every element whose key is `k`, a `find?` for key `k`
finds nothing. -/
theorem find?_filter_bne [DecidableEq κ] (l : List α) (f : α → κ) (k : κ) :
    (l.filter (fun x => f x != k)).find? (fun x => f x == k) = none := by
  rw [List.find?_eq_none]
  intro x hx
  have hne := (List.mem_filter.mp hx).2
  simp at hne ⊢
  exact hne

/-- The element appended at the end of a list sits at index `l.length`. -/
theorem getElem?_concat_self (l : List α) (a : α) : (l ++ [a])[l.length]? = some a := by
  induction l with
  | nil => rfl
  | cons x xs ih => simp [ih]

/-- Overwriting the appended last element, then reading it back. -/
theorem getElem?_set_concat (l : List α) (a b : α) :
    ((l ++ [a]).set l.length b)[l.length]? = some b := by
  induction l with
  | nil => rfl
  | cons x xs ih => simp [ih]

end ListLemmas

/-- `Map.set` puts the given entry where a `find?` for its key will return
exactly it. -/
theorem find?_mapSet_self (l : List PendEntry) (e : PendEntry) :
    (mapSet l e).find? (fun x => x.key == e.key) = some e := by
  induction l with
  | nil => simp [mapSet, List.find?_cons]
  | cons x xs ih =>
    cases hx : x.key == e.key with
    | true => simp [mapSet, hx, List.find?_cons]
    | false => simpa [mapSet, hx, List.find?_cons] using ih

/-- C3: If the upstream connection is absent or not open, `forward` rejects
immediately with the not-connected error and performs no state change at
all: no pending entry, no timer, nothing sent upstream, no promise created. -/
theorem forward_rejects_when_not_connected (s : ProxyState) (req : Request) (fresh : JsId)
    (h : isOpen s.upstream = false) :
    forward s req fresh = (s, Except.error notConnectedMessage) := by
  simp [forward, h]

/-- Witness for `forward_rejects_when_not_connected`: a relay that has not
yet connected (constructor state, `upstream = null`). -/
theorem forward_rejects_when_not_connected_witness :
    isOpen (ProxyState.mk none [] [] [] [] 0 0 []).upstream = false ∧
    forward (ProxyState.mk none [] [] [] [] 0 0 [])
        (Request.mk (some (JsId.str "abc")) (some "tools/call") 0) (JsId.str "u0")
      = (ProxyState.mk none [] [] [] [] 0 0 [], Except.error notConnectedMessage) :=
  ⟨rfl, forward_rejects_when_not_connected _ _ _ rfl⟩

/-- C10: An upstream message whose identifier matches no pending entry —
including a message with no identifier at all — is silently discarded: the
handler leaves the entire relay state unchanged, so no promise is settled,
no response reaches any local client, and the pending map is untouched. -/
theorem unmatched_upstream_message_ignored (s : ProxyState) (msg : UpMsg)
    (h : lookupPending s.pending msg.id? = none) :
    handleUpstreamMessage s msg = s := by
  simp [handleUpstreamMessage, h]

/-- Witness for `unmatched_upstream_message_ignored`: a relay with a pending
entry for id `"a"` receives an upstream message with id `"b"`; the state is
unchanged. -/
theorem unmatched_upstream_message_ignored_witness :
    lookupPending (ProxyState.mk (some (UpstreamConn.mk 0 defaultProxyUrl ReadyState.opened))
        [PendEntry.mk (JsId.str "a") 0 0] [Timer.mk 0 (JsId.str "a") 0 30000]
        [PromiseState.pending] [] 1 1 []).pending (UpMsg.mk (some (JsId.str "b")) 5).id? = none ∧
    handleUpstreamMessage (ProxyState.mk (some (UpstreamConn.mk 0 defaultProxyUrl ReadyState.opened))
        [PendEntry.mk (JsId.str "a") 0 0] [Timer.mk 0 (JsId.str "a") 0 30000]
        [PromiseState.pending] [] 1 1 [])
        (UpMsg.mk (some (JsId.str "b")) 5)
      = ProxyState.mk (some (UpstreamConn.mk 0 defaultProxyUrl ReadyState.opened))
        [PendEntry.mk (JsId.str "a") 0 0] [Timer.mk 0 (JsId.str "a") 0 30000]
        [PromiseState.pending] [] 1 1 [] :=
  ⟨by decide, unmatched_upstream_message_ignored _ _ (by decide)⟩

/-- C1: A `forward` call carrying id `k` followed by an upstream message
with the same id resolves the forward promise with exactly that parsed
upstream message, and afterwards the pending map holds no entry for `k`. -/
theorem forward_then_response_resolved (s : ProxyState) (req : Request) (fresh k : JsId)
    (msg : UpMsg) (hconn : isOpen s.upstream = true) (hrid : req.id? = some k)
    (hmid : msg.id? = some k) :
    (handleUpstreamMessage (forward s req fresh).1 msg).promises[s.promises.length]?
        = some (PromiseState.resolved msg) ∧
    lookupPending (handleUpstreamMessage (forward s req fresh).1 msg).pending (some k)
        = none := by
  have hs1 : (forward s req fresh).1 = { s with
      promises := s.promises ++ [PromiseState.pending]
      timers := s.timers ++ [Timer.mk s.nextTimerId k s.promises.length 30000]
      pending := mapSet s.pending (PendEntry.mk k s.nextTimerId s.promises.length)
      sent := s.sent ++ [{ req with id? := some k }]
      nextTimerId := s.nextTimerId + 1 } := by
    simp [forward, hconn, hrid]
  have hfind : lookupPending (mapSet s.pending (PendEntry.mk k s.nextTimerId s.promises.length))
      (some k) = some (PendEntry.mk k s.nextTimerId s.promises.length) := by
    simpa [lookupPending] using
      find?_mapSet_self s.pending (PendEntry.mk k s.nextTimerId s.promises.length)
  have hsettle : settle (s.promises ++ [PromiseState.pending]) s.promises.length
      (PromiseState.resolved msg)
      = (s.promises ++ [PromiseState.pending]).set s.promises.length
          (PromiseState.resolved msg) := by
    simp [settle, getElem?_concat_self]
  rw [hs1]
  constructor
  · simp only [handleUpstreamMessage, hmid, hfind]
    simp [hsettle, getElem?_set_concat]
  · simp only [handleUpstreamMessage, hmid, hfind]
    simp [lookupPending, find?_filter_bne]

/-- Witness for `forward_then_response_resolved`: an open connection, a
request with id `"abc"` and an upstream response with id `"abc"`. -/
theorem forward_then_response_resolved_witness :
    isOpen (ProxyState.mk (some (UpstreamConn.mk 0 defaultProxyUrl ReadyState.opened))
        [] [] [] [] 0 1 []).upstream = true ∧
    (Request.mk (some (JsId.str "abc")) (some "tools/call") 3).id? = some (JsId.str "abc") ∧
    (UpMsg.mk (some (JsId.str "abc")) 7).id? = some (JsId.str "abc") ∧
    ((handleUpstreamMessage
        (forward (ProxyState.mk (some (UpstreamConn.mk 0 defaultProxyUrl ReadyState.opened))
            [] [] [] [] 0 1 [])
          (Request.mk (some (JsId.str "abc")) (some "tools/call") 3) (JsId.str "u0")).1
        (UpMsg.mk (some (JsId.str "abc")) 7)).promises[
          (ProxyState.mk (some (UpstreamConn.mk 0 defaultProxyUrl ReadyState.opened))
            [] [] [] [] 0 1 []).promises.length]?
        = some (PromiseState.resolved (UpMsg.mk (some (JsId.str "abc")) 7)) ∧
      lookupPending (handleUpstreamMessage
        (forward (ProxyState.mk (some (UpstreamConn.mk 0 defaultProxyUrl ReadyState.opened))
            [] [] [] [] 0 1 [])
          (Request.mk (some (JsId.str "abc")) (some "tools/call") 3) (JsId.str "u0")).1
        (UpMsg.mk (some (JsId.str "abc")) 7)).pending (some (JsId.str "abc")) = none) :=
  ⟨rfl, rfl, rfl,
    forward_then_response_resolved _ _ (JsId.str "u0") _ _ rfl rfl rfl⟩

/-- C2: The timer armed by `forward` has exactly a 30 000 ms delay; when it
fires, the forward promise is rejected with the timeout error and the
pending entry for the request id is removed; the fired timer cannot fire
again (removal happens exactly once), and an upstream message bearing that
id after the timeout is ignored — it changes nothing and resolves nothing. -/
theorem forward_timeout_then_late_message (s : ProxyState) (req : Request) (fresh k : JsId)
    (msg : UpMsg) (hconn : isOpen s.upstream = true) (hrid : req.id? = some k)
    (hmid : msg.id? = some k) (hfresh : ∀ t ∈ s.timers, t.tid < s.nextTimerId) :
    (forward s req fresh).1.timers.find? (fun t => t.tid == s.nextTimerId)
        = some (Timer.mk s.nextTimerId k s.promises.length 30000) ∧
    (fireTimeout (forward s req fresh).1 s.nextTimerId).promises[s.promises.length]?
        = some (PromiseState.rejected timeoutErrorMessage) ∧
    lookupPending (fireTimeout (forward s req fresh).1 s.nextTimerId).pending (some k)
        = none ∧
    fireTimeout (fireTimeout (forward s req fresh).1 s.nextTimerId) s.nextTimerId
        = fireTimeout (forward s req fresh).1 s.nextTimerId ∧
    handleUpstreamMessage (fireTimeout (forward s req fresh).1 s.nextTimerId) msg
        = fireTimeout (forward s req fresh).1 s.nextTimerId := by
  have hs1 : (forward s req fresh).1 = { s with
      promises := s.promises ++ [PromiseState.pending]
      timers := s.timers ++ [Timer.mk s.nextTimerId k s.promises.length 30000]
      pending := mapSet s.pending (PendEntry.mk k s.nextTimerId s.promises.length)
      sent := s.sent ++ [{ req with id? := some k }]
      nextTimerId := s.nextTimerId + 1 } := by
    simp [forward, hconn, hrid]
  have hnone : s.timers.find? (fun t => t.tid == s.nextTimerId) = none := by
    rw [List.find?_eq_none]
    intro t ht
    simpa using Nat.ne_of_lt (hfresh t ht)
  have hfind1 : (s.timers ++ [Timer.mk s.nextTimerId k s.promises.length 30000]).find?
      (fun t => t.tid == s.nextTimerId)
      = some (Timer.mk s.nextTimerId k s.promises.length 30000) := by
    rw [find?_append_of_none _ _ _ hnone]
    simp [List.find?]
  have hsettle : settle (s.promises ++ [PromiseState.pending]) s.promises.length
      (PromiseState.rejected timeoutErrorMessage)
      = (s.promises ++ [PromiseState.pending]).set s.promises.length
          (PromiseState.rejected timeoutErrorMessage) := by
    simp [settle, getElem?_concat_self]
  have hs2 : fireTimeout (forward s req fresh).1 s.nextTimerId = { s with
      promises := (s.promises ++ [PromiseState.pending]).set s.promises.length
        (PromiseState.rejected timeoutErrorMessage)
      timers := (s.timers ++ [Timer.mk s.nextTimerId k s.promises.length 30000]).filter
        (fun t => t.tid != s.nextTimerId)
      pending := (mapSet s.pending (PendEntry.mk k s.nextTimerId s.promises.length)).filter
        (fun x => x.key != k)
      sent := s.sent ++ [{ req with id? := some k }]
      nextTimerId := s.nextTimerId + 1 } := by
    rw [hs1]
    simp only [fireTimeout, hfind1, hsettle]
  have hpend : lookupPending ((mapSet s.pending
      (PendEntry.mk k s.nextTimerId s.promises.length)).filter
        (fun x => x.key != k)) (some k) = none := by
    simp [lookupPending, find?_filter_bne]
  have htim : ((s.timers ++ [Timer.mk s.nextTimerId k s.promises.length 30000]).filter
      (fun t => t.tid != s.nextTimerId)).find? (fun t => t.tid == s.nextTimerId) = none :=
    find?_filter_bne _ Timer.tid s.nextTimerId
  refine ⟨?_, ?_, ?_, ?_, ?_⟩
  · rw [hs1]
    exact hfind1
  · rw [hs2]
    simp [getElem?_set_concat]
  · rw [hs2]
    exact hpend
  · rw [hs2]
    simp only [fireTimeout, htim]
  · rw [hs2]
    simp only [handleUpstreamMessage, hmid, hpend]

/-- Witness for `forward_timeout_then_late_message`: fresh relay with an
open connection, request id `"abc"`, the timer fires, then a late upstream
message with id `"abc"` arrives. -/
theorem forward_timeout_then_late_message_witness :
    isOpen (ProxyState.mk (some (UpstreamConn.mk 0 defaultProxyUrl ReadyState.opened))
        [] [] [] [] 0 1 []).upstream = true ∧
    (Request.mk (some (JsId.str "abc")) (some "tools/call") 3).id? = some (JsId.str "abc") ∧
    (UpMsg.mk (some (JsId.str "abc")) 7).id? = some (JsId.str "abc") ∧
    (∀ t ∈ (ProxyState.mk (some (UpstreamConn.mk 0 defaultProxyUrl ReadyState.opened))
        [] [] [] [] 0 1 []).timers,
      t.tid < (ProxyState.mk (some (UpstreamConn.mk 0 defaultProxyUrl ReadyState.opened))
        [] [] [] [] 0 1 []).nextTimerId) ∧
    (fireTimeout (forward (ProxyState.mk (some (UpstreamConn.mk 0 defaultProxyUrl
          ReadyState.opened)) [] [] [] [] 0 1 [])
        (Request.mk (some (JsId.str "abc")) (some "tools/call") 3) (JsId.str "u0")).1
        0).promises[0]? = some (PromiseState.rejected timeoutErrorMessage) :=
  ⟨rfl, rfl, rfl, by simp,
    (forward_timeout_then_late_message
      (ProxyState.mk (some (UpstreamConn.mk 0 defaultProxyUrl ReadyState.opened))
        [] [] [] [] 0 1 [])
      (Request.mk (some (JsId.str "abc")) (some "tools/call") 3)
      (JsId.str "u0") (JsId.str "abc") (UpMsg.mk (some (JsId.str "abc")) 7)
      rfl rfl rfl (by simp)).2.1⟩

/-- One frame sent back to the local client over its WebSocket: either a
matched upstream response forwarded verbatim, or a locally constructed
JSON-RPC error object `{ jsonrpc, id, error: { code, message } }`. -/
inductive Sent where
  | response (msg : UpMsg)
  | errorResponse (id? : Option JsId) (code : Int) (message : String)
deriving DecidableEq, Repr

/-- One audit record emitted by `logEvent` (the `fetch` POST to
`/v1/audit/events`): the event type and whether delivery succeeded. The
POST is fire-and-forget; its failure is caught and discarded. -/
structure AuditRecord where
  eventType : String
  delivered : Bool
deriving DecidableEq, Repr

/-- JavaScript falsiness of an optional string field: `undefined` and the
empty string are both falsy. -/
def falsyStr (o : Option String) : Bool :=
  match o with
  | none => true
  | some s => s == ""

/-- `logEvent(eventType, details)` from `logger.js`: re-reads the config and
emits nothing when `orgApiKey` or `agentId` is falsy
(`if (!config.orgApiKey || !config.agentId) return;`); otherwise initiates
exactly one POST. `deliveryOk` is the eventual fate of that POST — the
`.catch(() => {})` swallows a failure, so the return value is `()` either
way and the record list is what was emitted. -/
def logEvent (cfg : Config) (eventType : String) (deliveryOk : Bool) : List AuditRecord :=
  if falsyStr cfg.orgApiKey || falsyStr cfg.agentId then []
  else [{ eventType := eventType, delivered := deliveryOk }]

/-- JavaScript `msg.method || 'unknown'`: `undefined` and the empty string
are falsy, so both fall back to the default. -/
def strOr (o : Option String) (d : String) : String :=
  match o with
  | none => d
  | some s => if s = "" then d else s

/-- The settled outcome of the awaited `this.forward(msg)` promise: `ok` when
a matching upstream response resolved it, `err` when it rejected (the
immediate not-connected throw or the 30 s timeout). Every forward promise
settles: immediately on the not-connected throw, on a matching response, or
by the always-armed timeout otherwise. -/
inductive FwdOutcome where
  | ok (resp : UpMsg)
  | err (msg : String)
deriving DecidableEq, Repr

/-- The result of a successful `JSON.parse(raw)` on a local frame, as the
handler can observe it. `JSON.parse` may return the value `null` (the
four-byte frame `null`), on which every property access throws a
`TypeError`; that case is `nullFrame`. Every other JSON value — an object,
an array, or a non-null primitive, whose property reads merely yield
`undefined` — is `obj req`, with absent `id`/`method` properties as `none`
fields of `req`. -/
inductive ParsedFrame where
  | nullFrame
  | obj (req : Request)
deriving DecidableEq, Repr

/-- The local connection's `message` handler (`start`, lines 24-48). `parsed`
is the result of `JSON.parse(raw)` — `none` for a malformed frame. The
malformed branch sends `{ jsonrpc: '2.0', id: null, error: { code: -32600,
message: 'Invalid JSON' } }`, logs `proxy.error`, and returns. For a frame
parsing to JSON `null`, `forward(null)` rejects in every state (the
not-connected guard throws, and otherwise `request.id` on `null` throws a
`TypeError` before any state mutation), and the catch block then evaluates
`msg.id ?? null` on `msg === null` — a `TypeError` thrown inside the catch:
the handler dies with no response sent and `logEvent` never reached.
Otherwise the handler awaits `forward` (whose state mutations are
`forward`, `handleUpstreamMessage` and `fireTimeout` above; this
continuation itself mutates no relay state, so the state passes through
unchanged): on success it sends the response then logs
`msg.method || 'unknown'`; on failure it sends `{ jsonrpc: '2.0',
id: msg.id ?? null, error: { code: -32603, message: err.message } }` then
logs `msg.method || 'proxy.error'`. In the surviving branches the response
is sent before `logEvent` runs and the `fetch` inside `logEvent` is never
awaited. -/
def handleLocalFrame (cfg : Config) (s : ProxyState) (parsed : Option ParsedFrame)
    (outcome : FwdOutcome) (deliveryOk : Bool) :
    ProxyState × List Sent × List AuditRecord :=
  match parsed with
  | none =>
    (s, [Sent.errorResponse none (-32600) "Invalid JSON"],
      logEvent cfg "proxy.error" deliveryOk)
  | some ParsedFrame.nullFrame => (s, [], [])
  | some (ParsedFrame.obj req) =>
    match outcome with
    | FwdOutcome.ok resp =>
      (s, [Sent.response resp], logEvent cfg (strOr req.method? "unknown") deliveryOk)
    | FwdOutcome.err e =>
      (s, [Sent.errorResponse req.id? (-32603) e],
        logEvent cfg (strOr req.method? "proxy.error") deliveryOk)

/-- C6: A malformed local frame gets exactly one locally constructed error
response with protocol-error code `-32600` and a null (`none`) identifier;
the handler returns normally (the relay keeps serving) and the relay state —
in particular the pending map, the active timers and every promise — is
completely untouched. -/
theorem malformed_frame_error_response (cfg : Config) (s : ProxyState)
    (outcome : FwdOutcome) (deliveryOk : Bool) :
    (handleLocalFrame cfg s none outcome deliveryOk).1 = s ∧
    (handleLocalFrame cfg s none outcome deliveryOk).2.1
        = [Sent.errorResponse none (-32600) "Invalid JSON"] ∧
    (handleLocalFrame cfg s none outcome deliveryOk).1.pending = s.pending ∧
    (handleLocalFrame cfg s none outcome deliveryOk).1.promises = s.promises ∧
    (handleLocalFrame cfg s none outcome deliveryOk).1.timers = s.timers ∧
    (handleLocalFrame cfg s none outcome deliveryOk).2.2
        = logEvent cfg "proxy.error" deliveryOk :=
  ⟨rfl, rfl, rfl, rfl, rfl, rfl⟩

/-- C7 counterexample: "exactly one audit record per handled frame" fails on
the local frame whose JSON text parses to the value `null`. With a fully
configured relay (credentials present, so `logEvent` would not skip),
handling that frame emits zero audit records — reading `msg.id` on `null`
throws inside the catch block before `logEvent` runs — and no response is
sent to the local client either. -/
theorem null_frame_skips_audit :
    (handleLocalFrame (Config.mk (some "agent_1") (some "key_1") none none)
        (ProxyState.mk none [] [] [] [] 0 0 [])
        (some ParsedFrame.nullFrame) (FwdOutcome.err notConnectedMessage) true).2.2
      = [] ∧
    (handleLocalFrame (Config.mk (some "agent_1") (some "key_1") none none)
        (ProxyState.mk none [] [] [] [] 0 0 [])
        (some ParsedFrame.nullFrame) (FwdOutcome.err notConnectedMessage) true).2.1
      = [] ∧
    falsyStr (Config.mk (some "agent_1") (some "key_1") none none).agentId = false ∧
    falsyStr (Config.mk (some "agent_1") (some "key_1") none none).orgApiKey = false :=
  ⟨rfl, rfl, rfl, rfl⟩

/-- C7 (amended): With the credentials that `start()` requires present in
the config, every handled local frame except one whose JSON text parses to
the value `null` — i.e. malformed, successfully forwarded, or failed
(not-connected or timeout) — emits exactly one audit record, and neither
the response sent to the local client nor the relay state depends on
whether that audit delivery succeeds or fails: audit failure is swallowed
and never blocks or alters the forwarding result. (A `null` frame dies on a
`TypeError` inside the catch block and is neither answered nor audited.) -/
theorem audited_once_unless_null_frame (cfg : Config) (s : ProxyState)
    (parsed : Option ParsedFrame) (outcome : FwdOutcome)
    (hA : falsyStr cfg.agentId = false) (hK : falsyStr cfg.orgApiKey = false)
    (hnn : parsed ≠ some ParsedFrame.nullFrame) :
    (∀ deliveryOk, (handleLocalFrame cfg s parsed outcome deliveryOk).2.2.length = 1) ∧
    (handleLocalFrame cfg s parsed outcome true).2.1
        = (handleLocalFrame cfg s parsed outcome false).2.1 ∧
    (handleLocalFrame cfg s parsed outcome true).1
        = (handleLocalFrame cfg s parsed outcome false).1 := by
  have hlog : ∀ ev dOk, (logEvent cfg ev dOk).length = 1 := by
    intro ev dOk
    simp [logEvent, hA, hK]
  refine ⟨?_, ?_, ?_⟩
  · intro dOk
    cases parsed with
    | none => simpa [handleLocalFrame] using hlog "proxy.error" dOk
    | some pf =>
      cases pf with
      | nullFrame => exact absurd rfl hnn
      | obj req =>
        cases outcome with
        | ok resp => simpa [handleLocalFrame] using hlog (strOr req.method? "unknown") dOk
        | err e => simpa [handleLocalFrame] using hlog (strOr req.method? "proxy.error") dOk
  · cases parsed with
    | none => rfl
    | some pf =>
      cases pf with
      | nullFrame => rfl
      | obj req => cases outcome <;> rfl
  · cases parsed with
    | none => rfl
    | some pf =>
      cases pf with
      | nullFrame => rfl
      | obj req => cases outcome <;> rfl

/-- Witness for `audited_once_unless_null_frame`: a configured relay handling
an object frame whose forward timed out. -/
theorem audited_once_unless_null_frame_witness :
    falsyStr (Config.mk (some "agent_1") (some "key_1") none none).agentId = false ∧
    falsyStr (Config.mk (some "agent_1") (some "key_1") none none).orgApiKey = false ∧
    some (ParsedFrame.obj (Request.mk (some (JsId.str "abc")) (some "tools/call") 3))
        ≠ some ParsedFrame.nullFrame ∧
    (∀ deliveryOk, (handleLocalFrame (Config.mk (some "agent_1") (some "key_1") none none)
        (ProxyState.mk none [] [] [] [] 0 0 [])
        (some (ParsedFrame.obj (Request.mk (some (JsId.str "abc")) (some "tools/call") 3)))
        (FwdOutcome.err timeoutErrorMessage) deliveryOk).2.2.length = 1) :=
  ⟨rfl, rfl, by decide,
    (audited_once_unless_null_frame (Config.mk (some "agent_1") (some "key_1") none none)
      (ProxyState.mk none [] [] [] [] 0 0 [])
      (some (ParsedFrame.obj (Request.mk (some (JsId.str "abc")) (some "tools/call") 3)))
      (FwdOutcome.err timeoutErrorMessage) rfl rfl (by decide)).1⟩

/-- A JSON value, the document type stored by `config.js`. Deep equality of
JavaScript JSON values is structural equality of this type. -/
inductive Json where
  | null
  | bool (b : Bool)
  | num (n : Int)
  | str (s : String)
  | arr (elems : List Json)
  | obj (fields : List (String × Json))

/-- The config file slot on disk: `none` when the file does not exist;
`some none` when it exists but holds text that is not valid JSON;
`some (some j)` when it exists and parses to `j`. File contents are
represented by their parsed JSON value: the JavaScript built-in
`JSON.stringify`/`JSON.parse` pair round-trips every JSON-representable
value, a property of the JavaScript runtime rather than of this repository,
so the codec is modelled as the identity on `Json`. -/
def FsState : Type := Option (Option Json)

/-- `readConfig()` from `config.js`: `if (!existsSync(CONFIG_PATH)) return {};`
then `JSON.parse(readFileSync(...))` — which throws on invalid contents. -/
def readConfig (fs : FsState) : Except String Json :=
  match fs with
  | none => Except.ok (Json.obj [])
  | some none => Except.error "SyntaxError: Unexpected token in JSON"
  | some (some j) => Except.ok j

/-- `writeConfig(config)` from `config.js`: serializes the full configuration
object and overwrites the file, whatever was there before. -/
def writeConfig (cfg : Json) (_fs : FsState) : FsState := some (some cfg)

/-- C8: The config store round-trips — for every configuration document
`cfg` and every prior file state, `readConfig` after `writeConfig cfg`
returns a value deep-equal (structurally equal) to `cfg`; and when the
config file does not exist, `readConfig` returns the empty object without
throwing. -/
theorem config_read_after_write_roundtrip (cfg : Json) (fs : FsState) :
    readConfig (writeConfig cfg fs) = Except.ok cfg ∧
    readConfig (none : FsState) = Except.ok (Json.obj []) :=
  ⟨rfl, rfl⟩

/-- C9: The upstream `close` handler unconditionally appends exactly one new
reconnect timer with delay 2 000 ms — for every relay state, so after every
disconnect, indefinitely, with no backoff, no cap and no circuit breaker —
while leaving the current upstream reference alone; when that timer fires,
`connectUpstream` runs and replaces `this.upstream` with the freshly created
connection, so the old connection is no longer the referenced (live) one. -/
theorem upstream_close_schedules_fixed_reconnect (cfg : Config) (s : ProxyState)
    (hwf : ∀ c, s.upstream = some c → c.cid < s.connCounter) :
    (handleUpstreamClose s).reconnectTimers
        = s.reconnectTimers ++ [ReconnTimer.mk s.nextTimerId 2000] ∧
    (handleUpstreamClose s).upstream = s.upstream ∧
    (connectUpstream cfg s).upstream
        = some (UpstreamConn.mk s.connCounter (cfg.proxyUrl.getD defaultProxyUrl)
            ReadyState.connecting) ∧
    (∀ c, s.upstream = some c → (connectUpstream cfg s).upstream ≠ some c) ∧
    (fireReconnect cfg (handleUpstreamClose s) s.nextTimerId).upstream
        = some (UpstreamConn.mk s.connCounter (cfg.proxyUrl.getD defaultProxyUrl)
            ReadyState.connecting) := by
  refine ⟨rfl, rfl, rfl, ?_, ?_⟩
  · intro c hc heq
    have hcid : s.connCounter = c.cid := by
      have := Option.some.inj heq
      exact congrArg UpstreamConn.cid this
    exact absurd hcid (Nat.ne_of_gt (hwf c hc))
  · have hany : (handleUpstreamClose s).reconnectTimers.any
        (fun t => t.tid == s.nextTimerId) = true := by
      simp [handleUpstreamClose]
    simp [fireReconnect, hany, connectUpstream, handleUpstreamClose]

/-- Witness for `upstream_close_schedules_fixed_reconnect`: a relay whose
only connection so far is number 0 observes a disconnect. -/
theorem upstream_close_schedules_fixed_reconnect_witness :
    (∀ c, (ProxyState.mk (some (UpstreamConn.mk 0 defaultProxyUrl ReadyState.closed))
        [] [] [] [] 3 1 []).upstream = some c →
      c.cid < (ProxyState.mk (some (UpstreamConn.mk 0 defaultProxyUrl ReadyState.closed))
        [] [] [] [] 3 1 []).connCounter) ∧
    (handleUpstreamClose (ProxyState.mk (some (UpstreamConn.mk 0 defaultProxyUrl
        ReadyState.closed)) [] [] [] [] 3 1 [])).reconnectTimers
      = [ReconnTimer.mk 3 2000] :=
  ⟨by intro c hc; cases Option.some.inj hc; decide,
    (upstream_close_schedules_fixed_reconnect (Config.mk none none none none)
      (ProxyState.mk (some (UpstreamConn.mk 0 defaultProxyUrl ReadyState.closed))
        [] [] [] [] 3 1 [])
      (by intro c hc; cases Option.some.inj hc; decide)).1⟩

/-- The result of `issueToken(agentId, orgApiKey)`: a bearer token and its
absolute expiry; `expiresAt` is already converted to epoch milliseconds
(`new Date(result.expiresAt).getTime()`). -/
structure TokenResult where
  token : String
  expiresAt : Int
deriving DecidableEq, Repr

/-- The fixed safety buffer subtracted from the token TTL (`REFRESH_BUFFER_MS
= 60_000` in the source). -/
def REFRESH_BUFFER_MS : Int := 60000

/-- The delay passed to `setTimeout` by `refreshToken`:
`delay = tokenExpiresAt - Date.now() - REFRESH_BUFFER_MS`, then
`delay > 0 ? delay : 0`. -/
def scheduledDelay (expiresAt now : Int) : Int :=
  let delay := expiresAt - now - REFRESH_BUFFER_MS
  if delay > 0 then delay else 0

/-- The token/refresh-timer slice of the `EmotosMCPProxy` instance state:
the current token, its expiry, the stored `this.refreshTimeout` handle,
the list of currently scheduled (armed, unfired, uncleared) refresh timers
as pairs of handle and delay, and a fresh-handle counter. -/
structure RefreshState where
  token : Option String
  tokenExpiresAt : Int
  refreshTimeout : Option Nat
  timers : List (Nat × Int)
  nextTid : Nat
deriving DecidableEq, Repr

/-- `EmotosMCPProxy.refreshToken()`. Throws `Not configured` when the config
lacks `agentId` or `orgApiKey` (JavaScript falsiness); otherwise awaits
`issueToken` — whose outcome is the `res` parameter; a rejection propagates
and changes nothing. On success it stores the new token and expiry, computes
the delay, clears the previously stored timer handle
(`if (this.refreshTimeout) clearTimeout(this.refreshTimeout)` — a no-op if
that handle already fired) and arms one new timer, storing its handle. -/
def refreshTokenStep (s : RefreshState) (cfg : Config) (res : Except String TokenResult)
    (now : Int) : RefreshState × Except String Unit :=
  if falsyStr cfg.agentId || falsyStr cfg.orgApiKey then
    (s, Except.error "Not configured. Run: node scripts/setup.js")
  else
    match res with
    | Except.error e => (s, Except.error e)
    | Except.ok r =>
      let cleared := match s.refreshTimeout with
        | some h => s.timers.filter (fun t => t.1 != h)
        | none => s.timers
      ({ token := some r.token
         tokenExpiresAt := r.expiresAt
         refreshTimeout := some s.nextTid
         timers := cleared ++ [(s.nextTid, scheduledDelay r.expiresAt now)]
         nextTid := s.nextTid + 1 },
        Except.ok ())

/-- An event of the refresh lifecycle: a direct `refreshToken()` call (as in
`start()`), or a scheduled timer firing and running `refreshToken()` with
the given `issueToken` outcome. -/
inductive RefreshEv where
  | call (cfg : Config) (res : Except String TokenResult) (now : Int)
  | fire (tid : Nat) (cfg : Config) (res : Except String TokenResult) (now : Int)
deriving Repr

/-- One refresh-lifecycle step. A `fire` event only does something when the
named timer is still scheduled; firing consumes the timer and then runs
`refreshToken`. -/
def refreshStep (s : RefreshState) (ev : RefreshEv) : RefreshState :=
  match ev with
  | RefreshEv.call cfg res now => (refreshTokenStep s cfg res now).1
  | RefreshEv.fire tid cfg res now =>
    if s.timers.any (fun t => t.1 == tid) then
      (refreshTokenStep { s with timers := s.timers.filter (fun t => t.1 != tid) }
        cfg res now).1
    else s

/-- Run a sequence of refresh-lifecycle events. -/
def refreshRun (s : RefreshState) : List RefreshEv → RefreshState
  | [] => s
  | ev :: evs => refreshRun (refreshStep s ev) evs

/-- The constructor state of `EmotosMCPProxy`: no token, expiry 0, no stored
timer handle, no scheduled timer. -/
def initRefreshState : RefreshState :=
  { token := none, tokenExpiresAt := 0, refreshTimeout := none, timers := [], nextTid := 0 }

/-- The structural invariant of the refresh lifecycle: either no refresh
timer is scheduled, or exactly one is and it is the stored handle. -/
def RefreshInv (s : RefreshState) : Prop :=
  s.timers = [] ∨ ∃ t, s.timers = [t] ∧ s.refreshTimeout = some t.1

theorem refreshTokenStep_inv (s : RefreshState) (cfg : Config)
    (res : Except String TokenResult) (now : Int) (h : RefreshInv s) :
    RefreshInv (refreshTokenStep s cfg res now).1 := by
  unfold refreshTokenStep
  split
  · exact h
  · cases res with
    | error e => exact h
    | ok r =>
      right
      refine ⟨(s.nextTid, scheduledDelay r.expiresAt now), ?_, rfl⟩
      rcases h with h0 | ⟨t, ht, hrt⟩
      · cases hrf : s.refreshTimeout <;> simp [h0, hrf]
      · simp [ht, hrt]

theorem refreshStep_inv (s : RefreshState) (ev : RefreshEv) (h : RefreshInv s) :
    RefreshInv (refreshStep s ev) := by
  cases ev with
  | call cfg res now => exact refreshTokenStep_inv _ _ _ _ h
  | fire tid cfg res now =>
    simp only [refreshStep]
    split
    · apply refreshTokenStep_inv
      rcases h with h0 | ⟨t, ht, hrt⟩
      · left
        simp [h0]
      · by_cases htid : t.1 = tid
        · left
          simp [ht, htid]
        · right
          exact ⟨t, by simp [ht, htid], hrt⟩
    · exact h

theorem refreshRun_inv (evs : List RefreshEv) (s : RefreshState) (h : RefreshInv s) :
    RefreshInv (refreshRun s evs) := by
  induction evs generalizing s with
  | nil => exact h
  | cons ev evs ih => exact ih _ (refreshStep_inv s ev h)

/-- C4: A successful `refreshToken` arms its next run with delay exactly
`scheduledDelay expiresAt now = max (expiresAt - now - REFRESH_BUFFER_MS) 0`:
the delay is never negative, and whenever the remaining TTL exceeds the
60 000 ms buffer the scheduled run fires strictly before the expiry. -/
theorem refresh_schedules_before_expiry (s : RefreshState) (cfg : Config)
    (r : TokenResult) (now : Int) (hA : falsyStr cfg.agentId = false)
    (hK : falsyStr cfg.orgApiKey = false) :
    (refreshTokenStep s cfg (Except.ok r) now).1.timers.getLast?
        = some (s.nextTid, scheduledDelay r.expiresAt now) ∧
    0 ≤ scheduledDelay r.expiresAt now ∧
    (REFRESH_BUFFER_MS < r.expiresAt - now →
      now + scheduledDelay r.expiresAt now < r.expiresAt) ∧
    scheduledDelay r.expiresAt now = max (r.expiresAt - now - REFRESH_BUFFER_MS) 0 := by
  refine ⟨?_, ?_, ?_, ?_⟩
  · simp [refreshTokenStep, hA, hK]
  · simp only [scheduledDelay, REFRESH_BUFFER_MS]
    split <;> omega
  · simp only [scheduledDelay, REFRESH_BUFFER_MS]
    intro hbuf
    split <;> omega
  · simp only [scheduledDelay, REFRESH_BUFFER_MS]
    split <;> omega

/-- Witness for `refresh_schedules_before_expiry`: a configured relay
refreshing at time 0 with a token valid for 10 000 000 ms. -/
theorem refresh_schedules_before_expiry_witness :
    falsyStr (Config.mk (some "agent_1") (some "key_1") none none).agentId = false ∧
    falsyStr (Config.mk (some "agent_1") (some "key_1") none none).orgApiKey = false ∧
    (refreshTokenStep initRefreshState (Config.mk (some "agent_1") (some "key_1") none none)
        (Except.ok (TokenResult.mk "tok_1" 10000000)) 0).1.timers.getLast?
      = some (0, scheduledDelay 10000000 0) :=
  ⟨rfl, rfl,
    (refresh_schedules_before_expiry initRefreshState
      (Config.mk (some "agent_1") (some "key_1") none none)
      (TokenResult.mk "tok_1" 10000000) 0 rfl rfl).1⟩

/-- C5 (amended): at most one scheduled refresh is ever pending — each
successful `refreshToken` clears the stored handle before arming a new
timer, so no reachable state has two concurrently scheduled refreshes. -/
theorem refresh_at_most_one_scheduled (evs : List RefreshEv) :
    (refreshRun initRefreshState evs).timers.length ≤ 1 := by
  have h := refreshRun_inv evs initRefreshState (Or.inl rfl)
  rcases h with h0 | ⟨t, ht, _⟩
  · simp [h0]
  · simp [ht]

/-- C5 counterexample: the claim that no post-startup state has zero
scheduled refreshes is false. After a successful startup refresh there is
one scheduled refresh; that timer then fires and the triggered
`refreshToken` fails (`issueToken` rejects), leaving zero scheduled
refreshes. -/
theorem refresh_zero_scheduled_reachable :
    (refreshRun initRefreshState
        [RefreshEv.call (Config.mk (some "agent_1") (some "key_1") none none)
          (Except.ok (TokenResult.mk "tok_1" 10000000)) 0]).timers.length = 1 ∧
    (refreshRun initRefreshState
        [RefreshEv.call (Config.mk (some "agent_1") (some "key_1") none none)
          (Except.ok (TokenResult.mk "tok_1" 10000000)) 0,
         RefreshEv.fire 0 (Config.mk (some "agent_1") (some "key_1") none none)
          (Except.error "fetch failed") 9940000]).timers.length = 0 := by
  constructor
  · decide
  · decide

end EmotosMCP
